import Mathlib

/-!
Shallow embedding of the turn-orchestration engine of `simple-ralph`
(`src/plan/{phases,protocol,session,app}.rs`, `src/commands/{plan,build}.rs`,
`src/claude.rs`), together with proofs about the frozen claims.

Modelling conventions:
* Rust structs become Lean structures with the same field names
  (`structure` being a Lean keyword, the one clashing field is renamed with a
  comment at its declaration).
* Stateful methods become pure state-passing functions.  The wall clock
  (`Utc::now()`) and UUID generation are passed in as explicit arguments.
* `u32`/`i32` become `Nat`/`Int`: no claim involves wraparound.
* The filesystem is an explicit association of paths to typed records;
  serde serialization/deserialization of the derived `PlanSession` schema is
  modelled as the typed record itself (the serde round trip is a library
  guarantee, outside this repository).
* serde_json parsing of child-process stdout is external nondeterminism and is
  passed to the classifier as an explicit parse-result argument.
-/

namespace Ralph

/-! ## String helpers (Rust `str` operations, char-list based) -/

/-- Rust `str::starts_with` on char lists: does the second list start with the
first? -/
def leadMatch : List Char → List Char → Bool
  | [], _ => true
  | _ :: _, [] => false
  | p :: ps, h :: hs => p == h && leadMatch ps hs

/-- Rust `str::contains` on char lists: does the second list contain the first
as a contiguous run? -/
def subSearch (pat : List Char) : List Char → Bool
  | [] => leadMatch pat []
  | h :: hs => leadMatch pat (h :: hs) || subSearch pat hs

/-- Rust `str::contains hay pat`. -/
def strContainsSub (hay pat : String) : Bool :=
  subSearch pat.toList hay.toList

/-- Rust `str::to_lowercase` (ASCII-faithful; the classifier vocabulary and the
inputs of interest are ASCII). -/
def lowerAscii (s : String) : String :=
  String.mk (s.toList.map Char.toLower)

/-- Rust `str::trim`. -/
def trimChars (s : String) : String :=
  String.mk (((s.toList.dropWhile Char.isWhitespace).reverse.dropWhile
    Char.isWhitespace).reverse)

/-- Rust `str::is_empty`. -/
def strIsEmpty (s : String) : Bool :=
  s.toList.isEmpty

/-- Rust `str::starts_with` on strings. -/
def beginsWith (s pat : String) : Bool :=
  leadMatch pat.toList s.toList

/-! ## Data model (`src/plan/phases.rs`, `src/plan/protocol.rs`) -/

/-- `plan/phases.rs`: interview-workflow phase.  Serialized snake_case; the
enumeration is closed and `Complete` is the terminal value. -/
inductive PlanPhase
  | Exploring
  | Asking
  | Working
  | Complete
deriving DecidableEq, Repr

/-- `plan/protocol.rs`: an answer to a question. -/
structure Answer where
  question_id : String
  value : String
deriving DecidableEq, Repr

/-- `plan/protocol.rs`: a selectable option for a question. -/
structure QuestionOption where
  key : String
  label : String
  description : Option String
deriving DecidableEq, Repr

/-- `plan/protocol.rs`: a question for the user. -/
structure Question where
  id : String
  category : String
  text : String
  context : Option String
  options : Option (List QuestionOption)
  allow_freeform : Bool
deriving DecidableEq, Repr

/-- `plan/protocol.rs`: a requirement recorded in the accumulated context. -/
structure Requirement where
  category : String
  description : String
  priority : Option String
deriving DecidableEq, Repr

/-- `plan/protocol.rs`: codebase summary.  The Rust field `structure` clashes
with a Lean keyword and is renamed `structureText`. -/
structure CodebaseSummary where
  languages : Option (List String)
  frameworks : Option (List String)
  structureText : Option String
  key_files : Option (List String)
deriving DecidableEq, Repr

/-- `plan/protocol.rs`: a task of the final PRD. -/
structure Task where
  category : String
  description : String
  steps : List String
  passes : Bool
deriving DecidableEq, Repr

/-- `plan/protocol.rs`: the final PRD payload (name, quality-gate command list,
task list). -/
structure FinalPrd where
  name : String
  quality_gates : List String
  tasks : List Task
deriving DecidableEq, Repr

/-- `plan/protocol.rs`: context accumulated across turns.  `merge_context` in
`session.rs` treats `requirements` as an appendable list and the other fields
as replace-wholesale values; `findings` is never merged. -/
structure PhaseContext where
  codebase_summary : Option CodebaseSummary
  requirements : Option (List Requirement)
  quality_gates : Option (List String)
  tasks : Option (List Task)
  findings : Option String
deriving DecidableEq, Repr

/-- `PhaseContext::default()`: every field absent. -/
def emptyPhaseContext : PhaseContext :=
  ⟨none, none, none, none, none⟩

/-- `plan/protocol.rs`: the strict turn-response envelope of the interview
workflow.  Only `phase` is required; all other fields default to absent. -/
structure PlanResponse where
  phase : PlanPhase
  status : Option String
  questions : Option (List Question)
  context : Option PhaseContext
  prd : Option FinalPrd
deriving DecidableEq, Repr

/-! ## Session store (`src/plan/session.rs`) -/

/-- `session.rs`: the durable, resumable session record.  Timestamps are
abstract instants (`Nat`). -/
structure PlanSession where
  id : String
  output_path : String
  last_phase : PlanPhase
  turn_count : Nat
  context : PhaseContext
  answers : List Answer
  created_at : Nat
  updated_at : Nat
deriving DecidableEq, Repr

/-- `session.rs` `SessionError`: read failure, strict-decode failure, or the
typed conflict error. -/
inductive SessionError
  | ReadError (msg : String)
  | ParseError (msg : String)
  | SessionExists
deriving DecidableEq, Repr

/-- `Path::parent` on string paths, with `session.rs`'s `unwrap_or(".")`:
everything before the last slash; `""` for a bare file name, `"/"` below the
root, `"."` when there is no parent at all. -/
def parentPath (p : String) : String :=
  let cs := p.toList
  match ((List.range cs.length).filter (fun i => cs.getD i ' ' == '/')).getLast? with
  | none => if p = "" then "." else ""
  | some 0 => "/"
  | some i => String.mk (cs.take i)

/-- `PathBuf::join` for the shapes `parentPath` produces. -/
def pathJoin (dir file : String) : String :=
  if dir = "" then file
  else if dir = "/" then dir ++ file
  else dir ++ "/" ++ file

/-- `PlanSession::session_file_path`: the fixed file name `.ralph-session.json`
inside the directory of the target output path. -/
def session_file_path (output_path : String) : String :=
  pathJoin (parentPath output_path) ".ralph-session.json"

/-- `PlanSession::new`: fresh session for an output path.  The generated UUID
and the creation instant are passed in. -/
def PlanSession.new (output_path fresh_id : String) (now : Nat) : PlanSession :=
  { id := fresh_id
    output_path := output_path
    last_phase := PlanPhase.Exploring
    turn_count := 0
    context := emptyPhaseContext
    answers := []
    created_at := now
    updated_at := now }

/-- `PlanSession::advance`: record the phase, increment the turn counter,
refresh the timestamp. -/
def PlanSession.advance (s : PlanSession) (phase : PlanPhase) (now : Nat) : PlanSession :=
  { s with last_phase := phase, turn_count := s.turn_count + 1, updated_at := now }

/-- `PlanSession::add_answer`: push the answer onto the list (no lookup, no
replacement) and refresh the timestamp. -/
def PlanSession.add_answer (s : PlanSession) (answer : Answer) (now : Nat) : PlanSession :=
  { s with answers := s.answers ++ [answer], updated_at := now }

/-- `PlanSession::merge_context`: `codebase_summary`, `quality_gates` and
`tasks` are replaced when the incoming value is present; `requirements` is
appended onto the stored list (created empty if absent); `findings` is left
untouched. -/
def PlanSession.merge_context (s : PlanSession) (context : PhaseContext) (now : Nat) :
    PlanSession :=
  let cs := match context.codebase_summary with
    | some v => some v
    | none => s.context.codebase_summary
  let reqs := match context.requirements with
    | some rs => some (s.context.requirements.getD [] ++ rs)
    | none => s.context.requirements
  let qg := match context.quality_gates with
    | some v => some v
    | none => s.context.quality_gates
  let ts := match context.tasks with
    | some v => some v
    | none => s.context.tasks
  { s with
    context :=
      { codebase_summary := cs
        requirements := reqs
        quality_gates := qg
        tasks := ts
        findings := s.context.findings }
    updated_at := now }

/-- `PlanSession::is_fresh`. -/
def PlanSession.is_fresh (s : PlanSession) : Bool :=
  s.turn_count == 0

/-! ## Filesystem model

One directory tree as a flat association of paths to typed file contents.  A
session file either strictly decodes to a record or is corrupt; serde fidelity
on the derived schema is assumed, so `save` stores the typed record itself. -/

/-- Content of a durable file: a strictly-decodable session record, or raw
text that fails strict decode. -/
inductive FileData
  | sessionRecord (s : PlanSession)
  | corrupt (raw : String)
deriving DecidableEq, Repr

/-- The filesystem: newest write first; lookup takes the first match. -/
structure FS where
  files : List (String × FileData)
deriving DecidableEq, Repr

/-- `std::fs::read_to_string` + decode, at the typed level. -/
def FS.read (fs : FS) (p : String) : Option FileData :=
  (fs.files.find? (fun e => e.1 == p)).map (fun e => e.2)

/-- `Path::exists`. -/
def FS.pathExists (fs : FS) (p : String) : Bool :=
  (fs.read p).isSome

/-- `std::fs::write` (in place, create-or-truncate). -/
def FS.write (fs : FS) (p : String) (d : FileData) : FS :=
  ⟨(p, d) :: fs.files⟩

/-- `std::fs::remove_file`. -/
def FS.remove (fs : FS) (p : String) : FS :=
  ⟨fs.files.filter (fun e => ¬ e.1 == p)⟩

/-- `PlanSession::load_or_create` (`session.rs` lines 78–103): resume reads and
strictly decodes the record; force deletes the record and creates fresh;
neither flag on an existing record is the typed conflict error; no record means
a fresh session.  Returns the result together with the (possibly mutated)
filesystem. -/
def PlanSession.load_or_create (fs : FS) (output_path : String) (resume force : Bool)
    (fresh_id : String) (now : Nat) : Except SessionError PlanSession × FS :=
  let session_path := session_file_path output_path
  if fs.pathExists session_path then
    if resume then
      match fs.read session_path with
      | some (FileData.sessionRecord s) => (Except.ok s, fs)
      | some (FileData.corrupt raw) => (Except.error (SessionError.ParseError raw), fs)
      | none => (Except.error (SessionError.ReadError session_path), fs)
    else if force then
      (Except.ok (PlanSession.new output_path fresh_id now), fs.remove session_path)
    else
      (Except.error SessionError.SessionExists, fs)
  else
    (Except.ok (PlanSession.new output_path fresh_id now), fs)

/-- `PlanSession::save` at the typed level: one in-place write of the full
record to the session path (the `create_dir_all` on the parent does not touch
files and is not modelled here). -/
def PlanSession.save_fs (s : PlanSession) (fs : FS) : FS :=
  fs.write (session_file_path s.output_path) (FileData.sessionRecord s)

/-! ## Save as a trace of filesystem operations (`PlanSession::save`,
`session.rs` lines 106–117), for the atomicity claim -/

/-- A primitive filesystem operation issued by the program. -/
inductive FsOp
  | createDirAll (dir : String)
  | writeFile (path content : String)
  | renameFile (src dst : String)
deriving DecidableEq, Repr

/-- Is this operation a rename (the commit step of write-temp-then-replace)? -/
def FsOp.isRename : FsOp → Bool
  | FsOp.renameFile _ _ => true
  | _ => false

/-- The exact operation sequence of `PlanSession::save`: ensure the parent
directory, then `std::fs::write` the serialized record directly to the final
session path.  `serialized` stands for `serde_json::to_string_pretty(self)`.
There is no temporary file and no rename. -/
def PlanSession.save_ops (s : PlanSession) (serialized : String) : List FsOp :=
  let session_path := session_file_path s.output_path
  [FsOp.createDirAll (parentPath session_path),
   FsOp.writeFile session_path serialized]

/-- Micro-step model of `std::fs::write p content`: the target is opened with
truncation and then the bytes are written, so a reader of `p` interleaved with
the write can observe the truncated (empty) intermediate state before the full
content. -/
def writeFileStates (content : String) : List String :=
  ["", content]

/-- File contents observable at path `p` by a reader interleaved with one
operation: an in-place write exposes its intermediate states; a rename is
atomic at the destination; directory creation touches no file. -/
def FsOp.statesAt (p : String) : FsOp → List String
  | FsOp.createDirAll _ => []
  | FsOp.writeFile q content => if q = p then writeFileStates content else []
  | FsOp.renameFile _ _ => []

/-- All file contents observable at `p` while an operation sequence runs. -/
def opsStatesAt (p : String) (ops : List FsOp) : List String :=
  (ops.map (FsOp.statesAt p)).flatten

/-! ## TUI answer collection (`src/plan/app.rs`) -/

/-- `app.rs`: input mode of the question screen. -/
inductive InputMode
  | Normal
  | Editing
deriving DecidableEq, Repr

/-- The slice of `PlanApp` state that `submit_answer` reads and writes
(`app.rs` lines 25–100; rendering-only fields omitted).  `option_selected`
models `option_list_state.selected()`. -/
structure PlanApp where
  questions : List Question
  current_question : Nat
  option_selected : Option Nat
  freeform_input : String
  input_mode : InputMode
  answers : List Answer
deriving DecidableEq, Repr

/-- The in-place update inside `PlanApp::submit_answer`: mutate the first
answer whose `question_id` matches, or push a new answer at the end
(`iter_mut().find` + `push`). -/
def setAnswerValue : List Answer → String → String → List Answer
  | [], qid, v => [⟨qid, v⟩]
  | a :: rest, qid, v =>
    if a.question_id = qid then { a with value := v } :: rest
    else a :: setAnswerValue rest qid v

/-- The user typing into the freeform input box (the net effect of
`enter_editing`/`enter_char` before a submit). -/
def PlanApp.withFreeform (app : PlanApp) (v : String) : PlanApp :=
  { app with freeform_input := v }

/-- `PlanApp::submit_answer` (`app.rs` lines 212–238): resolve the value of the
current question (freeform text in editing mode or when the question has no
options, otherwise the key of the selected option), then, when the value is
nonempty, replace the existing answer for this question id or push a new
one. -/
def PlanApp.submit_answer (app : PlanApp) : PlanApp :=
  match app.questions[app.current_question]? with
  | none => app
  | some q =>
    let value :=
      if app.input_mode = InputMode.Editing ∨ q.options = none then
        app.freeform_input
      else
        match q.options with
        | some opts => ((opts[app.option_selected.getD 0]?).map QuestionOption.key).getD ""
        | none => ""
    if value ≠ "" then { app with answers := setAnswerValue app.answers q.id value }
    else app

/-! ## Interview interaction loop (`src/commands/plan.rs`) -/

/-- What `run` in `commands/plan.rs` does when strict serde decode of the turn
stdout fails (lines 154–183): abort the run with the fatal, user-visible
`PlanError::InvalidOutput`, or log the parse error and continue the loop. -/
inductive ParseFailureDisposition
  | fatalInvalidOutput (detail : String)
  | continueLoop
deriving DecidableEq, Repr

/-- The decode-failure branch of the interview loop: when the trimmed stdout
does not begin with an opening brace, the run ends with
`PlanError::InvalidOutput` carrying the raw stdout (and stderr when present)
and the session is left as-is; otherwise the parse error is logged, the
session advances as `Working`, is saved, and the loop continues with the next
turn.  No secondary (repair) child process is spawned on either path: the
interview loop never calls `normalize_json_with_haiku`. -/
def plan_handle_parse_failure (s : PlanSession) (stdout stderr : String) (now : Nat) :
    ParseFailureDisposition × PlanSession :=
  if ¬ beginsWith (trimChars stdout) "\x7b" then
    (ParseFailureDisposition.fatalInvalidOutput
      (if strIsEmpty stderr then stdout
       else "stdout: " ++ stdout ++ "\nstderr: " ++ stderr),
     s)
  else
    (ParseFailureDisposition.continueLoop, s.advance PlanPhase.Working now)

/-- The user-interaction outcome of one asking round (`collect_answers`): did
the user quit, did they press Ctrl+Enter to submit, and which answers were in
`app.answers` at that point. -/
structure UserRound where
  quit : Bool
  submit : Bool
  answers : List Answer
deriving DecidableEq, Repr

/-- One turn of the interview loop whose stdout strictly decoded: the parsed
response and the user interaction that follows it. -/
structure TurnInput where
  response : PlanResponse
  user : UserRound
deriving DecidableEq, Repr

/-- Net result of running the interview loop over a sequence of decoded turns:
the final session, how many turns were actually issued, the final-output
payload written to the output path (pretty-printed by `serde_json`, modelled
as the payload itself), and whether the session file was cleaned up. -/
structure PlanRunResult where
  session : PlanSession
  turns_issued : Nat
  emitted : Option FinalPrd
  cleaned : Bool
deriving DecidableEq, Repr

/-- The main loop of `run` in `commands/plan.rs` (lines 85–252) over decoded
turn responses.  Per turn: `session.advance(response.phase)`, merge the
response context if present, save (tracked by `save_fs` separately), then
dispatch on the phase: `Complete` emits `response.prd` when present (and only
then cleans the session file) and stops; `Asking` with questions stops on user
quit or missing submit, else stores the round's answers through
`add_answer` and continues; `Asking` without questions and the autonomous
phases continue. -/
def plan_run (s : PlanSession) (now : Nat) : List TurnInput → PlanRunResult
  | [] => { session := s, turns_issued := 0, emitted := none, cleaned := false }
  | t :: rest =>
    let s1 := s.advance t.response.phase now
    let s2 := match t.response.context with
      | some c => s1.merge_context c now
      | none => s1
    match t.response.phase with
    | PlanPhase.Complete =>
      { session := s2
        turns_issued := 1
        emitted := t.response.prd
        cleaned := t.response.prd.isSome }
    | PlanPhase.Asking =>
      match t.response.questions with
      | some _ =>
        if t.user.quit then
          { session := s2, turns_issued := 1, emitted := none, cleaned := false }
        else if ¬ t.user.submit then
          { session := s2, turns_issued := 1, emitted := none, cleaned := false }
        else
          let s3 := t.user.answers.foldl (fun acc a => acc.add_answer a now) s2
          let r := plan_run s3 now rest
          { r with turns_issued := r.turns_issued + 1 }
      | none =>
        let r := plan_run s2 now rest
        { r with turns_issued := r.turns_issued + 1 }
    | _ =>
      let r := plan_run s2 now rest
      { r with turns_issued := r.turns_issued + 1 }

/-! ## Task-execution outcome classifier (`src/commands/build.rs`) -/

/-- `build.rs`: structured output of one build iteration. -/
structure BuildIterationOutput where
  task_number : Int
  status : String
  summary : String
  prd_complete : Bool
deriving DecidableEq, Repr

/-- `build.rs`: the envelope that `claude --output-format json` emits: a type
tag, an error flag, and an optional structured payload. -/
structure ClaudeJsonOutput where
  output_type : String
  is_error : Bool
  structured_output : Option BuildIterationOutput
deriving DecidableEq, Repr

/-- `build.rs` `ClaudeResult`: the closed set of turn outcomes. -/
inductive ClaudeResult
  | Success (r : BuildIterationOutput)
  | ClaudeError (raw : String)
  | TransientError (msg : String)
  | ParseError (msg : String)
  | Interrupted
deriving DecidableEq, Repr

/-- Is this outcome the retry-triggering one? -/
def ClaudeResult.isTransient : ClaudeResult → Bool
  | ClaudeResult.TransientError _ => true
  | _ => false

/-- `build.rs` `is_retryable_error`: case-insensitive scan of a fixed
vocabulary of transient-failure indicator substrings. -/
def is_retryable_error (stderr : String) : Bool :=
  let l := lowerAscii stderr
  strContainsSub l "500" || strContainsSub l "502" || strContainsSub l "503" ||
  strContainsSub l "504" || strContainsSub l "internal server error" ||
  strContainsSub l "service unavailable" || strContainsSub l "bad gateway" ||
  strContainsSub l "gateway timeout" || strContainsSub l "overloaded" ||
  strContainsSub l "rate limit"

/-- Outcome of `serde_json::from_str::<ClaudeJsonOutput>` on stdout — external
nondeterminism, passed to the classifier explicitly. -/
inductive SerdeResult
  | ok (w : ClaudeJsonOutput)
  | err (msg : String)
deriving DecidableEq, Repr

/-- The classification tail of `run_claude_iteration` (`build.rs` lines
148–186), after the child exits with the given stdout/stderr and `parsed` as
the strict-decode outcome of stdout: empty stdout is always transient (three
sub-cases by stderr); a decoded envelope with a structured payload is a
success regardless of its error flag; a decoded error envelope is rescanned
for transient indicators, else a declared agent failure; a decoded envelope
with neither payload nor error flag, or a failed decode, is a parse error. -/
def classify_output (stdout stderr : String) (parsed : SerdeResult) : ClaudeResult :=
  if strIsEmpty (trimChars stdout) then
    if is_retryable_error stderr then
      ClaudeResult.TransientError ("API error: " ++ trimChars stderr)
    else if ¬ strIsEmpty (trimChars stderr) then
      ClaudeResult.TransientError ("Empty output with stderr: " ++ trimChars stderr)
    else
      ClaudeResult.TransientError "Empty output from Claude"
  else
    match parsed with
    | SerdeResult.ok w =>
      match w.structured_output with
      | some result => ClaudeResult.Success result
      | none =>
        if w.is_error then
          if is_retryable_error stdout then
            ClaudeResult.TransientError ("Claude API error:\n" ++ stdout)
          else
            ClaudeResult.ClaudeError stdout
        else
          ClaudeResult.ParseError ("No structured output:\n" ++ stdout)
    | SerdeResult.err e =>
      ClaudeResult.ParseError ("Parse error: " ++ e ++ "\n\nRaw output:\n" ++ stdout)

/-! ## Retry/backoff controller (`src/commands/build.rs` lines 12–15 and
211–304) -/

/-- `build.rs`: maximum number of retry attempts for transient errors. -/
def MAX_RETRIES : Nat := 5

/-- `build.rs`: base delay in seconds for exponential backoff. -/
def BASE_RETRY_DELAY_SECS : Nat := 5

/-- Terminal state of the retry loop: broke out with a non-transient outcome,
or converted to the terminal retries-exhausted failure. -/
inductive RetryOutcome
  | finished (r : ClaudeResult)
  | exhausted (lastMsg : String)
deriving DecidableEq, Repr

/-- Observable trace of one run of the retry loop: how many child-process
invocations were issued, the backoff delays (in seconds) slept between them,
and the terminal state. -/
structure RetryTrace where
  invocations : Nat
  delays : List Nat
  outcome : RetryOutcome
deriving DecidableEq, Repr

/-- The retry loop of `run` in `build.rs` (lines 212–304), with the outcome of
the i-th invocation supplied by `outcomes` and no user interruption during the
backoff waits.  At the top of each pass a delay of
`BASE_RETRY_DELAY_SECS * 2 ^ (retry_count - 1)` seconds is slept when
`retry_count > 0`; a transient outcome increments `retry_count` and, past
`MAX_RETRIES`, becomes the terminal exhausted failure; every other outcome
ends the loop. -/
def retry_go (outcomes : Nat → ClaudeResult) (attempt retry_count : Nat) : RetryTrace :=
  let delay : List Nat :=
    if 0 < retry_count then [BASE_RETRY_DELAY_SECS * 2 ^ (retry_count - 1)] else []
  match outcomes attempt with
  | ClaudeResult.TransientError msg =>
    if h : retry_count + 1 > MAX_RETRIES then
      { invocations := 1, delays := delay, outcome := RetryOutcome.exhausted msg }
    else
      let rest := retry_go outcomes (attempt + 1) (retry_count + 1)
      { invocations := rest.invocations + 1
        delays := delay ++ rest.delays
        outcome := rest.outcome }
  | r =>
    { invocations := 1, delays := delay, outcome := RetryOutcome.finished r }
termination_by MAX_RETRIES + 1 - retry_count
decreasing_by simp only [MAX_RETRIES] at *; omega

/-- One whole turn of the task-execution workflow: the retry loop entered with
`retry_count = 0`. -/
def retry_run (outcomes : Nat → ClaudeResult) : RetryTrace :=
  retry_go outcomes 0 0

/-! ## Concrete values used by witnesses and counterexamples -/

/-- A concrete fresh session. -/
def demoSession : PlanSession :=
  PlanSession.new "/tmp/prd.json" "id-1" 0

/-- A concrete freeform question with id `q1`. -/
def demoQuestion : Question :=
  { id := "q1", category := "scope", text := "Which framework?", context := none,
    options := none, allow_freeform := true }

/-- A concrete structured build payload. -/
def demoBuild : BuildIterationOutput :=
  { task_number := 1, status := "completed", summary := "x", prd_complete := false }

/-- An asking turn of the interview loop whose round submits exactly the given
answer for `q1`. -/
def askingTurn (a : Answer) : TurnInput :=
  { response := { phase := PlanPhase.Asking, status := none,
                  questions := some [demoQuestion], context := none, prd := none }
    user := { quit := false, submit := true, answers := [a] } }

/-- A turn whose response declares the terminal phase but carries no `prd`
payload. -/
def completeTurnNoPrd : TurnInput :=
  { response := { phase := PlanPhase.Complete, status := none,
                  questions := none, context := none, prd := none }
    user := { quit := false, submit := false, answers := [] } }

/-- A concrete TUI state showing question `q1` in editing mode with no answer
collected yet. -/
def demoApp : PlanApp :=
  { questions := [demoQuestion], current_question := 0, option_selected := none,
    freeform_input := "", input_mode := InputMode.Editing, answers := [] }

/-- Attempt outcomes where the first attempt is transient and the second
succeeds. -/
def oneTransientThenSuccess : Nat → ClaudeResult :=
  fun i => if i = 0 then ClaudeResult.TransientError "overloaded" else
    ClaudeResult.Success demoBuild

/-- A concrete final PRD payload. -/
def demoPrd : FinalPrd :=
  { name := "Demo", quality_gates := ["cargo test"],
    tasks := [{ category := "feature", description := "Add auth",
                steps := ["step 1"], passes := false }] }

/-- A turn whose response declares the terminal phase and carries a `prd`
payload. -/
def completeTurnWithPrd : TurnInput :=
  { response := { phase := PlanPhase.Complete, status := none,
                  questions := none, context := none, prd := some demoPrd }
    user := { quit := false, submit := false, answers := [] } }

/-- An autonomous exploring turn. -/
def exploringTurn : TurnInput :=
  { response := { phase := PlanPhase.Exploring, status := some "Reading files",
                  questions := none, context := none, prd := none }
    user := { quit := false, submit := false, answers := [] } }

/-- Concrete requirements for context-merge scenarios. -/
def demoReqA : Requirement :=
  { category := "feature", description := "Add auth", priority := none }

/-- Second concrete requirement. -/
def demoReqB : Requirement :=
  { category := "test", description := "Add tests", priority := none }

/-- First concrete codebase summary. -/
def demoSummaryX : CodebaseSummary :=
  { languages := some ["Rust"], frameworks := none, structureText := none,
    key_files := none }

/-- Second concrete codebase summary. -/
def demoSummaryY : CodebaseSummary :=
  { languages := some ["Rust", "Lean"], frameworks := none, structureText := none,
    key_files := none }

/-- A concrete filesystem already holding a record at the session path derived
from `/tmp/prd.json`. -/
def demoFS : FS :=
  ⟨[("/tmp/.ralph-session.json", FileData.corrupt "junk")]⟩

/-- A well-formed envelope whose error flag is set and which nevertheless
carries a structured payload. -/
def demoErrorEnvelope : ClaudeJsonOutput :=
  { output_type := "result", is_error := true, structured_output := some demoBuild }

/-! ## Shared lemmas -/

theorem leadMatch_refl_append (l t : List Char) : leadMatch l (l ++ t) = true := by
  induction l with
  | nil => rfl
  | cons c cs ih => simp [leadMatch, ih]

theorem subSearch_of_leadMatch (pat hay : List Char) (h : leadMatch pat hay = true) :
    subSearch pat hay = true := by
  cases hay with
  | nil => simpa [subSearch] using h
  | cons c cs => simp [subSearch, h]

theorem subSearch_append_right (pre pat rest : List Char)
    (h : subSearch pat rest = true) : subSearch pat (pre ++ rest) = true := by
  induction pre with
  | nil => simpa using h
  | cons c cs ih => simp [subSearch, ih]

theorem subSearch_infix (pre pat suf : List Char) :
    subSearch pat (pre ++ (pat ++ suf)) = true :=
  subSearch_append_right pre pat (pat ++ suf)
    (subSearch_of_leadMatch pat (pat ++ suf) (leadMatch_refl_append pat suf))

theorem strContainsSub_of_toList (hay pat : String) (pre suf : List Char)
    (h : hay.toList = pre ++ (pat.toList ++ suf)) : strContainsSub hay pat = true := by
  unfold strContainsSub
  rw [h]
  exact subSearch_infix pre pat.toList suf

theorem setAnswerValue_of_notMem (l : List Answer) (qid v : String)
    (h : ∀ a ∈ l, a.question_id ≠ qid) :
    setAnswerValue l qid v = l ++ [⟨qid, v⟩] := by
  induction l with
  | nil => rfl
  | cons a rest ih =>
    have ha : a.question_id ≠ qid := h a (List.mem_cons_self a rest)
    simp only [setAnswerValue, if_neg ha, List.cons_append, List.cons.injEq, true_and]
    exact ih (fun b hb => h b (List.mem_cons_of_mem a hb))

theorem setAnswerValue_append_hit (l : List Answer) (qid v w : String)
    (h : ∀ a ∈ l, a.question_id ≠ qid) :
    setAnswerValue (l ++ [⟨qid, v⟩]) qid w = l ++ [⟨qid, w⟩] := by
  induction l with
  | nil => simp [setAnswerValue]
  | cons a rest ih =>
    have ha : a.question_id ≠ qid := h a (List.mem_cons_self a rest)
    simp only [List.cons_append, setAnswerValue, if_neg ha, List.cons.injEq, true_and]
    exact ih (fun b hb => h b (List.mem_cons_of_mem a hb))

theorem retry_go_finished_step (outcomes : Nat → ClaudeResult) (a rc : Nat)
    (r : ClaudeResult) (h : outcomes a = r) (hr : r.isTransient = false) :
    retry_go outcomes a rc =
      { invocations := 1
        delays := if 0 < rc then [BASE_RETRY_DELAY_SECS * 2 ^ (rc - 1)] else []
        outcome := RetryOutcome.finished r } := by
  rw [retry_go, h]
  cases r with
  | TransientError m => simp [ClaudeResult.isTransient] at hr
  | _ => rfl

theorem retry_go_transient_step (outcomes : Nat → ClaudeResult) (a rc : Nat)
    (msg : String) (h : outcomes a = ClaudeResult.TransientError msg)
    (hle : rc + 1 ≤ MAX_RETRIES) :
    retry_go outcomes a rc =
      { invocations := (retry_go outcomes (a + 1) (rc + 1)).invocations + 1
        delays := (if 0 < rc then [BASE_RETRY_DELAY_SECS * 2 ^ (rc - 1)] else []) ++
          (retry_go outcomes (a + 1) (rc + 1)).delays
        outcome := (retry_go outcomes (a + 1) (rc + 1)).outcome } := by
  rw [retry_go, h]
  simp [Nat.not_lt.mpr hle]

theorem retry_go_exhaust_step (outcomes : Nat → ClaudeResult) (a rc : Nat)
    (msg : String) (h : outcomes a = ClaudeResult.TransientError msg)
    (hgt : rc + 1 > MAX_RETRIES) :
    retry_go outcomes a rc =
      { invocations := 1
        delays := if 0 < rc then [BASE_RETRY_DELAY_SECS * 2 ^ (rc - 1)] else []
        outcome := RetryOutcome.exhausted msg } := by
  rw [retry_go, h]
  simp [hgt]

theorem range_map_pow_succ (B rc t : Nat) :
    (List.range (t + 1)).map (fun i => B * 2 ^ (rc + i)) =
      B * 2 ^ rc :: (List.range t).map (fun i => B * 2 ^ (rc + 1 + i)) := by
  rw [List.range_succ_eq_map, List.map_cons, List.map_map]
  simp only [Nat.add_zero, List.cons.injEq, true_and]
  apply List.map_congr_left
  intro i _
  simp only [Function.comp_apply]
  congr 2
  omega

/-- Trace of the retry loop on a run whose first `t` attempts (from `a`, with
`retry_count = rc`) are transient and whose next attempt ends with the
non-transient outcome `r`. -/
theorem retry_go_spec_finished :
    ∀ (t : Nat) (outcomes : Nat → ClaudeResult) (a rc : Nat) (r : ClaudeResult),
    rc + t ≤ MAX_RETRIES →
    (∀ i, i < t → (outcomes (a + i)).isTransient = true) →
    outcomes (a + t) = r → r.isTransient = false →
    retry_go outcomes a rc =
      { invocations := t + 1
        delays := (if 0 < rc then [BASE_RETRY_DELAY_SECS * 2 ^ (rc - 1)] else []) ++
          (List.range t).map (fun i => BASE_RETRY_DELAY_SECS * 2 ^ (rc + i))
        outcome := RetryOutcome.finished r } := by
  intro t
  induction t with
  | zero =>
    intro outcomes a rc r _ _ hlast hr
    rw [retry_go_finished_step outcomes a rc r (by simpa using hlast) hr]
    simp only [Nat.zero_add, List.range_zero, List.map_nil, List.append_nil]
  | succ t ih =>
    intro outcomes a rc r hle htr hlast hr
    have h0 : (outcomes (a + 0)).isTransient = true := htr 0 (Nat.succ_pos t)
    obtain ⟨m, hm⟩ : ∃ m, outcomes a = ClaudeResult.TransientError m := by
      cases hout : outcomes a with
      | TransientError m => exact ⟨m, rfl⟩
      | _ => simp [hout, ClaudeResult.isTransient] at h0
    have hrest := ih outcomes (a + 1) (rc + 1) r (by omega)
      (fun i hi => by
        have := htr (i + 1) (by omega)
        simpa [Nat.add_assoc, Nat.add_comm 1 i] using this)
      (by
        have heq : a + 1 + t = a + (t + 1) := by omega
        rw [heq]; exact hlast) hr
    rw [retry_go_transient_step outcomes a rc m hm (by omega), hrest]
    simp only [range_map_pow_succ, Nat.zero_lt_succ, if_true, Nat.add_sub_cancel]
    simp [List.append_assoc]

/-- Trace of the retry loop on a run that is transient all the way to the
retry ceiling: `k + 1` further invocations happen and the loop converts to the
terminal exhausted failure carrying the last transient message. -/
theorem retry_go_spec_exhausted :
    ∀ (k : Nat) (outcomes : Nat → ClaudeResult) (a rc : Nat) (msgs : Nat → String),
    rc + k = MAX_RETRIES →
    (∀ i, i ≤ k → outcomes (a + i) = ClaudeResult.TransientError (msgs (a + i))) →
    retry_go outcomes a rc =
      { invocations := k + 1
        delays := (if 0 < rc then [BASE_RETRY_DELAY_SECS * 2 ^ (rc - 1)] else []) ++
          (List.range k).map (fun i => BASE_RETRY_DELAY_SECS * 2 ^ (rc + i))
        outcome := RetryOutcome.exhausted (msgs (a + k)) } := by
  intro k
  induction k with
  | zero =>
    intro outcomes a rc msgs hk htr
    have h0 := htr 0 (Nat.le_refl 0)
    rw [retry_go_exhaust_step outcomes a rc (msgs (a + 0)) (by simpa using h0) (by omega)]
    simp only [Nat.zero_add, List.range_zero, List.map_nil, List.append_nil, Nat.add_zero]
  | succ k ih =>
    intro outcomes a rc msgs hk htr
    have h0 := htr 0 (Nat.zero_le _)
    have hrest := ih outcomes (a + 1) (rc + 1) msgs (by omega)
      (fun i hi => by
        have := htr (i + 1) (by omega)
        simpa [Nat.add_assoc, Nat.add_comm 1 i] using this)
    rw [retry_go_transient_step outcomes a rc (msgs (a + 0)) (by simpa using h0) (by omega),
      hrest]
    have hk1 : a + 1 + k = a + (k + 1) := by omega
    simp only [range_map_pow_succ, Nat.zero_lt_succ, if_true, Nat.add_sub_cancel, hk1]
    simp [List.append_assoc]

/-! ## Claims -/

/-- C1 (counterexample): the claim that the session's collected-answers list
holds at most one answer per question id is false for the durable session:
driving the interview loop through two asking rounds that each submit an
answer for `q1` (first `"A"`, then `"B"`) leaves the session with TWO answers
for `q1` — `PlanSession::add_answer` pushes without looking for an existing
entry. -/
theorem C1_counterexample :
    (plan_run demoSession 0 [askingTurn ⟨"q1", "A"⟩, askingTurn ⟨"q1", "B"⟩]).session.answers
      = [⟨"q1", "A"⟩, ⟨"q1", "B"⟩] := by decide

/-- C1 (amended): replacement-by-id happens one layer up, in the TUI
collection: for any app state showing a single question in editing mode,
submitting a nonempty value `v1` and then a nonempty value `v2` for it leaves
exactly one collected answer for that question id, holding `v2` —
`PlanApp::submit_answer` overwrites the existing entry instead of pushing a
duplicate.  The durable session's `add_answer` appends without replacement. -/
theorem C1_spec : ∀ (app : PlanApp) (q : Question) (v1 v2 : String),
    app.questions = [q] → app.current_question = 0 →
    app.input_mode = InputMode.Editing →
    v1 ≠ "" → v2 ≠ "" →
    (∀ a ∈ app.answers, a.question_id ≠ q.id) →
    (((app.withFreeform v1).submit_answer.withFreeform v2).submit_answer).answers
      = app.answers ++ [⟨q.id, v2⟩] := by
  intro app q v1 v2 hq hcur hmode hv1 hv2 hnm
  have h1 : (app.withFreeform v1).submit_answer
      = { app with
            freeform_input := v1
            answers := app.answers ++ [⟨q.id, v1⟩] } := by
    unfold PlanApp.withFreeform PlanApp.submit_answer
    simp [hq, hcur, hmode, hv1, setAnswerValue_of_notMem app.answers q.id v1 hnm]
  rw [h1]
  unfold PlanApp.withFreeform PlanApp.submit_answer
  simp [hq, hcur, hmode, hv2, setAnswerValue_append_hit app.answers q.id v1 v2 hnm]

/-- C1 witness: submitting `"A"` then `"B"` for `q1` through the TUI leaves
exactly one answer, `q1 ↦ "B"`. -/
theorem C1_witness :
    (((demoApp.withFreeform "A").submit_answer.withFreeform "B").submit_answer).answers
      = [⟨"q1", "B"⟩] := by
  have h := C1_spec demoApp demoQuestion "A" "B" rfl rfl rfl (by decide) (by decide)
    (by intro a ha; simp [demoApp] at ha)
  simpa [demoApp, demoQuestion] using h

/-- C2 (counterexample): the claim that every strict-decode failure in the
interview workflow attempts the repair path once and otherwise ends the loop
fatally is false: on a decode failure whose raw stdout begins with a brace
(e.g. `"\x7b oops"`), the loop neither spawns a repair call nor aborts — it
records the parse error, advances the session as `Working` and continues with
the next turn (`commands/plan.rs` lines 176–182; `normalize_json_with_haiku`
has no caller in the interview loop). -/
theorem C2_counterexample :
    plan_handle_parse_failure demoSession "\x7b oops" "" 7
      = (ParseFailureDisposition.continueLoop,
         demoSession.advance PlanPhase.Working 7) := by decide

/-- C2 (amended): on strict-decode failure the interview workflow never
attempts a repair call; the failure is fatal and loop-ending exactly when the
trimmed stdout does not begin with an opening brace, in which case the fatal
error detail preserves the raw stdout text; otherwise the session advances as
`Working` and the loop continues. -/
theorem C2_spec : ∀ (s : PlanSession) (stdout stderr : String) (now : Nat),
    ((plan_handle_parse_failure s stdout stderr now).1 = ParseFailureDisposition.continueLoop
        ↔ beginsWith (trimChars stdout) "\x7b" = true) ∧
    (beginsWith (trimChars stdout) "\x7b" = true →
        plan_handle_parse_failure s stdout stderr now
          = (ParseFailureDisposition.continueLoop, s.advance PlanPhase.Working now)) ∧
    (∀ detail, (plan_handle_parse_failure s stdout stderr now).1
          = ParseFailureDisposition.fatalInvalidOutput detail →
        strContainsSub detail stdout = true) := by
  intro s stdout stderr now
  by_cases hb : beginsWith (trimChars stdout) "\x7b" = true
  · refine ⟨by simp [plan_handle_parse_failure, hb], fun _ => by
      simp [plan_handle_parse_failure, hb], fun detail hd => ?_⟩
    simp [plan_handle_parse_failure, hb] at hd
  · refine ⟨by simp [plan_handle_parse_failure, hb], fun h => absurd h hb,
      fun detail hd => ?_⟩
    simp [plan_handle_parse_failure, hb] at hd
    subst hd
    by_cases he : strIsEmpty stderr = true
    · rw [if_pos he]
      exact strContainsSub_of_toList stdout stdout [] [] (by simp)
    · rw [if_neg he]
      refine strContainsSub_of_toList _ stdout ("stdout: ".toList)
        (("\nstderr: " ++ stderr).toList) ?_
      simp [String.toList, String.data_append]

/-- C2 witness: a brace-initial decode failure continues the loop with the
session advanced as `Working`. -/
theorem C2_witness :
    beginsWith (trimChars "\x7b broken") "\x7b" = true ∧
    plan_handle_parse_failure demoSession "\x7b broken" "" 3
      = (ParseFailureDisposition.continueLoop,
         demoSession.advance PlanPhase.Working 3) :=
  ⟨by decide, (C2_spec demoSession "\x7b broken" "" 3).2.1 (by decide)⟩

/-- C3 (counterexample): the claim that the controller never issues more than
the attempt ceiling (5) of invocations before converting to the terminal
retries-exhausted failure is false: on an unbroken transient sequence the loop
issues 6 invocations (the initial attempt plus `MAX_RETRIES = 5` retries),
with all five backoff delays slept, before exhausting. -/
theorem C3_counterexample :
    retry_run (fun _ => ClaudeResult.TransientError "503 overloaded")
      = { invocations := 6, delays := [5, 10, 20, 40, 80],
          outcome := RetryOutcome.exhausted "503 overloaded" } ∧
    MAX_RETRIES = 5 := by
  constructor
  · simp [retry_run, retry_go, MAX_RETRIES, BASE_RETRY_DELAY_SECS]
  · rfl

/-- C3 (amended): for every run whose first `n - 1` attempts are transient and
whose `n`-th attempt ends non-transient (`n ≤ MAX_RETRIES + 1`), the
controller issues exactly `n` invocations with delays
`base * 2 ^ 0 .. base * 2 ^ (n - 2)` between them and returns the final
classified outcome of attempt `n`; an unbroken transient sequence is
converted to the terminal retries-exhausted failure only after
`MAX_RETRIES + 1 = 6` invocations — one initial attempt plus `MAX_RETRIES`
retries — not after 5. -/
theorem C3_spec : ∀ (outcomes : Nat → ClaudeResult),
    (∀ (n : Nat) (r : ClaudeResult),
      1 ≤ n → n ≤ MAX_RETRIES + 1 →
      (∀ i, i < n - 1 → (outcomes i).isTransient = true) →
      outcomes (n - 1) = r → r.isTransient = false →
      retry_run outcomes =
        { invocations := n
          delays := (List.range (n - 1)).map (fun i => BASE_RETRY_DELAY_SECS * 2 ^ i)
          outcome := RetryOutcome.finished r }) ∧
    (∀ msgs : Nat → String,
      (∀ i, i ≤ MAX_RETRIES → outcomes i = ClaudeResult.TransientError (msgs i)) →
      retry_run outcomes =
        { invocations := MAX_RETRIES + 1
          delays := (List.range MAX_RETRIES).map (fun i => BASE_RETRY_DELAY_SECS * 2 ^ i)
          outcome := RetryOutcome.exhausted (msgs MAX_RETRIES) }) := by
  intro outcomes
  constructor
  · intro n r hn1 hn2 htr hlast hr
    unfold retry_run
    rw [retry_go_spec_finished (n - 1) outcomes 0 0 r (by omega)
      (fun i hi => by simpa using htr i hi) (by simpa using hlast) hr]
    have hn : n - 1 + 1 = n := by omega
    simp [hn]
  · intro msgs h
    unfold retry_run
    rw [retry_go_spec_exhausted MAX_RETRIES outcomes 0 0 msgs (by omega)
      (fun i hi => by simpa using h i hi)]
    simp

/-- C3 witness: a transient first attempt followed by a success yields exactly
two invocations with a single 5-second delay and the success as the final
outcome. -/
theorem C3_witness :
    retry_run oneTransientThenSuccess
      = { invocations := 2, delays := [5],
          outcome := RetryOutcome.finished (ClaudeResult.Success demoBuild) } := by
  have h := (C3_spec oneTransientThenSuccess).1 2
    (ClaudeResult.Success demoBuild) (by decide) (by decide) (by decide) (by decide)
    (by decide)
  simpa [BASE_RETRY_DELAY_SECS] using h

/-- C4 (counterexample): the claim that reaching the terminal phase triggers
emission of the final-output payload is false when the `Complete` response
carries no `prd`: the loop still stops after that turn (no further turn is
issued) but nothing is emitted and the session file is not cleaned up. -/
theorem C4_counterexample :
    completeTurnNoPrd.response.phase = PlanPhase.Complete ∧
    (plan_run demoSession 0 [completeTurnNoPrd, completeTurnNoPrd]).turns_issued = 1 ∧
    (plan_run demoSession 0 [completeTurnNoPrd, completeTurnNoPrd]).emitted = none ∧
    (plan_run demoSession 0 [completeTurnNoPrd, completeTurnNoPrd]).cleaned = false := by
  decide

/-- C4 (amended): `Complete` is terminal — after any autonomous prefix, the
turn that declares `Complete` is the last one issued regardless of how many
further turns are available — and reaching it emits exactly the `prd` payload
of that response (pretty-printed to the output path) when present; when the
payload is absent nothing is emitted and the session file is kept. -/
theorem C4_spec : ∀ (pre : List TurnInput) (t : TurnInput) (rest : List TurnInput)
    (s : PlanSession) (now : Nat),
    (∀ u ∈ pre, u.response.phase = PlanPhase.Exploring ∨
      u.response.phase = PlanPhase.Working) →
    t.response.phase = PlanPhase.Complete →
    (plan_run s now (pre ++ t :: rest)).turns_issued = pre.length + 1 ∧
    (plan_run s now (pre ++ t :: rest)).emitted = t.response.prd ∧
    (plan_run s now (pre ++ t :: rest)).cleaned = t.response.prd.isSome := by
  intro pre
  induction pre with
  | nil =>
    intro t rest s now _ ht
    simp [plan_run, ht]
  | cons u pre ih =>
    intro t rest s now hpre ht
    have hu := hpre u (List.mem_cons_self u pre)
    have step := fun s2 => ih t rest s2 now
      (fun v hv => hpre v (List.mem_cons_of_mem u hv)) ht
    rcases hu with hu | hu <;>
    · simp only [List.cons_append, plan_run, hu, List.append_eq]
      cases hcx : u.response.context with
      | none =>
        exact ⟨by rw [(step _).1]; simp, (step _).2.1, (step _).2.2⟩
      | some c =>
        exact ⟨by rw [(step _).1]; simp, (step _).2.1, (step _).2.2⟩

/-- C4 witness: one exploring turn, then a `Complete` response carrying a
payload: two turns issued, the payload emitted, the session cleaned, even
though a further turn was available. -/
theorem C4_witness :
    (plan_run demoSession 0
        ([exploringTurn] ++ completeTurnWithPrd :: [completeTurnNoPrd])).turns_issued = 2 ∧
    (plan_run demoSession 0
        ([exploringTurn] ++ completeTurnWithPrd :: [completeTurnNoPrd])).emitted
      = some demoPrd ∧
    (plan_run demoSession 0
        ([exploringTurn] ++ completeTurnWithPrd :: [completeTurnNoPrd])).cleaned = true := by
  have h := C4_spec [exploringTurn] completeTurnWithPrd [completeTurnNoPrd]
    demoSession 0 (by intro u hu; simp at hu; subst hu; left; rfl) rfl
  exact ⟨h.1, by rw [h.2.1]; rfl, by rw [h.2.2]; rfl⟩

/-- C5 (counterexample): the claim that `save` writes atomically
(write-temp-then-replace or equivalent) so that no reader observes a
partially-written file is false: `save` issues a direct in-place
`std::fs::write` to the final session path with no temporary file and no
rename, so a reader interleaved with the write can observe the truncated
(empty) file, which differs from the full record. -/
theorem C5_counterexample :
    demoSession.save_ops "\x7b \x7d"
      = [FsOp.createDirAll "/tmp",
         FsOp.writeFile "/tmp/.ralph-session.json" "\x7b \x7d"] ∧
    "" ∈ opsStatesAt (session_file_path demoSession.output_path)
      (demoSession.save_ops "\x7b \x7d") ∧
    ("" : String) ≠ "\x7b \x7d" := by decide

/-- C5 (amended): `save` is not atomic: its operation trace contains no rename
(no write-temp-then-replace commit step), and for every nonempty serialized
record an interleaved reader of the session path can observe a state that is
not the full record (the truncated intermediate of the in-place write). -/
theorem C5_spec : ∀ (s : PlanSession) (serialized : String),
    serialized ≠ "" →
    (∀ op ∈ s.save_ops serialized, op.isRename = false) ∧
    "" ∈ opsStatesAt (session_file_path s.output_path) (s.save_ops serialized) ∧
    "" ≠ serialized := by
  intro s serialized hne
  refine ⟨?_, ?_, fun h => hne h.symm⟩
  · intro op hop
    simp [PlanSession.save_ops] at hop
    rcases hop with h | h <;> simp [h, FsOp.isRename]
  · simp [PlanSession.save_ops, opsStatesAt, FsOp.statesAt, writeFileStates]

/-- C5 witness: at a concrete nonempty record, the truncated state is
observable and differs from the record. -/
theorem C5_witness :
    "" ∈ opsStatesAt (session_file_path demoSession.output_path)
      (demoSession.save_ops "record") ∧
    "" ≠ "record" :=
  (C5_spec demoSession "record" (by decide)).2

/-- C6: whenever raw stdout is empty (after trimming), the classifier returns
`TransientError` — in all three sub-cases (stderr matches the transient
vocabulary, stderr nonempty but unmatched, stderr empty) — and in the matched
sub-case the message wraps the trimmed stderr; in particular stdout `""` with
stderr `"503 Service Unavailable"` classifies as `TransientError`. -/
theorem C6_spec : ∀ (stdout stderr : String) (parsed : SerdeResult),
    strIsEmpty (trimChars stdout) = true →
    (∃ m, classify_output stdout stderr parsed = ClaudeResult.TransientError m) ∧
    (is_retryable_error stderr = true →
      classify_output stdout stderr parsed
        = ClaudeResult.TransientError ("API error: " ++ trimChars stderr)) := by
  intro stdout stderr parsed h
  constructor
  · unfold classify_output
    rw [if_pos h]
    by_cases hr : is_retryable_error stderr = true
    · exact ⟨"API error: " ++ trimChars stderr, by rw [if_pos hr]⟩
    · by_cases he : strIsEmpty (trimChars stderr) = true
      · refine ⟨"Empty output from Claude", ?_⟩
        rw [if_neg (by simp [hr]), if_neg (by simp [he])]
      · refine ⟨"Empty output with stderr: " ++ trimChars stderr, ?_⟩
        rw [if_neg (by simp [hr]), if_pos (by simp [he])]
  · intro hr
    unfold classify_output
    rw [if_pos h, if_pos hr]

/-- C6 witness: the spec's scenario — stdout `""`, stderr
`"503 Service Unavailable"` — classifies as `TransientError` with the API
error message. -/
theorem C6_witness :
    strIsEmpty (trimChars "") = true ∧
    classify_output "" "503 Service Unavailable" (SerdeResult.err "e")
      = ClaudeResult.TransientError ("API error: " ++ trimChars "503 Service Unavailable") :=
  ⟨by decide,
   (C6_spec "" "503 Service Unavailable" (SerdeResult.err "e") (by decide)).2 (by decide)⟩

/-- C7: context merging appends for the list field and is last-write-wins for
the replace-wholesale fields, and an absent incoming field never overwrites:
merging requirements `[A]` then `[B]` into a session with no stored
requirements yields `[A, B]` in order without deduplication; merging summary
`X` then `Y` yields `Y`; merging a context whose `codebase_summary`,
`quality_gates` or `tasks` field is absent leaves the stored value
unchanged. -/
theorem C7_spec : ∀ (s : PlanSession) (A B : Requirement) (X Y : CodebaseSummary)
    (c : PhaseContext) (n1 n2 n3 : Nat),
    (s.context.requirements = none →
      ((s.merge_context { emptyPhaseContext with requirements := some [A] } n1).merge_context
          { emptyPhaseContext with requirements := some [B] } n2).context.requirements
        = some [A, B]) ∧
    (((s.merge_context { emptyPhaseContext with codebase_summary := some X } n1).merge_context
          { emptyPhaseContext with codebase_summary := some Y } n2).context.codebase_summary
        = some Y) ∧
    (c.codebase_summary = none →
      (s.merge_context c n3).context.codebase_summary = s.context.codebase_summary) ∧
    (c.quality_gates = none →
      (s.merge_context c n3).context.quality_gates = s.context.quality_gates) ∧
    (c.tasks = none →
      (s.merge_context c n3).context.tasks = s.context.tasks) := by
  intro s A B X Y c n1 n2 n3
  refine ⟨?_, ?_, ?_, ?_, ?_⟩
  · intro h
    simp [PlanSession.merge_context, emptyPhaseContext, h]
  · simp [PlanSession.merge_context, emptyPhaseContext]
  · intro h
    simp [PlanSession.merge_context, h]
  · intro h
    simp [PlanSession.merge_context, h]
  · intro h
    simp [PlanSession.merge_context, h]

/-- C7 witness: the merge scenarios at concrete values — requirements
`[A]` then `[B]` give `[A, B]`; summaries `X` then `Y` give `Y`; an
all-absent incoming context changes none of the replace-wholesale fields. -/
theorem C7_witness :
    ((demoSession.merge_context { emptyPhaseContext with requirements := some [demoReqA] } 1
        ).merge_context { emptyPhaseContext with requirements := some [demoReqB] } 2
        ).context.requirements = some [demoReqA, demoReqB] ∧
    ((demoSession.merge_context { emptyPhaseContext with codebase_summary := some demoSummaryX } 1
        ).merge_context { emptyPhaseContext with codebase_summary := some demoSummaryY } 2
        ).context.codebase_summary = some demoSummaryY ∧
    (demoSession.merge_context emptyPhaseContext 3).context.codebase_summary
      = demoSession.context.codebase_summary ∧
    (demoSession.merge_context emptyPhaseContext 3).context.quality_gates
      = demoSession.context.quality_gates ∧
    (demoSession.merge_context emptyPhaseContext 3).context.tasks
      = demoSession.context.tasks := by
  have h := C7_spec demoSession demoReqA demoReqB demoSummaryX demoSummaryY
    emptyPhaseContext 1 2 3
  exact ⟨h.1 rfl, h.2.1, h.2.2.1 rfl, h.2.2.2.1 rfl, h.2.2.2.2 rfl⟩

/-- C8: when a record already exists at the session path, `load_or_create`
with neither resume nor force returns the typed `SessionExists` conflict error
and leaves the filesystem exactly as it was — the record is neither
overwritten nor deleted. -/
theorem C8_spec : ∀ (fs : FS) (output_path fresh_id : String) (now : Nat),
    fs.pathExists (session_file_path output_path) = true →
    PlanSession.load_or_create fs output_path false false fresh_id now
      = (Except.error SessionError.SessionExists, fs) := by
  intro fs output_path fresh_id now h
  simp [PlanSession.load_or_create, h]

/-- C8 witness: a filesystem holding a record at the session path of
`/tmp/prd.json` yields the conflict error and is returned unchanged. -/
theorem C8_witness :
    demoFS.pathExists (session_file_path "/tmp/prd.json") = true ∧
    PlanSession.load_or_create demoFS "/tmp/prd.json" false false "id-2" 9
      = (Except.error SessionError.SessionExists, demoFS) :=
  ⟨by decide, C8_spec demoFS "/tmp/prd.json" "id-2" 9 (by decide)⟩

/-- C9: saving a session and reloading through `load_or_create` with
`resume = true` succeeds and yields a record whose `id`, `turn_count`,
`last_phase` and `answers` are identical to the saved session's. -/
theorem C9_spec : ∀ (s : PlanSession) (fs : FS) (fresh_id : String) (now : Nat),
    ∃ loaded,
      (PlanSession.load_or_create (s.save_fs fs) s.output_path true false fresh_id now).1
        = Except.ok loaded ∧
      loaded.id = s.id ∧ loaded.turn_count = s.turn_count ∧
      loaded.last_phase = s.last_phase ∧ loaded.answers = s.answers := by
  intro s fs fresh_id now
  refine ⟨s, ?_, rfl, rfl, rfl, rfl⟩
  simp [PlanSession.load_or_create, PlanSession.save_fs, FS.pathExists, FS.read, FS.write,
    List.find?]

/-- C10: a well-formed envelope carrying a structured payload classifies as
`Success` even when its error flag is set — the payload check precedes the
error-flag check, which is only consulted when the payload is absent. -/
theorem C10_spec : ∀ (stdout stderr : String) (w : ClaudeJsonOutput)
    (r : BuildIterationOutput),
    strIsEmpty (trimChars stdout) = false →
    w.structured_output = some r →
    classify_output stdout stderr (SerdeResult.ok w) = ClaudeResult.Success r := by
  intro stdout stderr w r h hw
  simp [classify_output, h, hw]

/-- C10 witness: an envelope with `is_error = true` that still carries a
structured payload classifies as `Success` with that payload. -/
theorem C10_witness :
    demoErrorEnvelope.is_error = true ∧
    classify_output "\x7bjson\x7d" "" (SerdeResult.ok demoErrorEnvelope)
      = ClaudeResult.Success demoBuild :=
  ⟨rfl, C10_spec "\x7bjson\x7d" "" demoErrorEnvelope demoBuild (by decide) rfl⟩

end Ralph
